/-
Verification of the OpenClaw Mission Control gateway session bridge
(frontend components and the spec'd bridge operations).

Strings are modelled as Lean `String`s; the character-level algorithms
(JavaScript `trim`, `split`, `join`) are embedded as functions on
`List Char` and wrapped back into `String` via the `data` field.
-/
import Mathlib

namespace MissionControl

/-! ### JavaScript string primitives -/

/-- The whitespace characters JavaScript's `String.prototype.trim` removes
(restricted to the ASCII ones that occur in this code base). -/
def isJsWhitespace (c : Char) : Bool :=
  c = ' ' || c = '\t' || c = '\r' || c = '\n' || c = '\x0b' || c = '\x0c'

/-- `String.prototype.trim` on a character list: drop whitespace from the
front, then from the back. -/
def trimChars (l : List Char) : List Char :=
  ((l.dropWhile isJsWhitespace).reverse.dropWhile isJsWhitespace).reverse

/-- JavaScript `value.trim()` on a `String`. -/
def jsTrim (s : String) : String :=
  ⟨trimChars s.data⟩

/-- One piece of `value.split(/\r?\n/)`: the regex separator `\r?\n`
consumes the `'\n'` together with a single `'\r'` immediately before it,
so after splitting on `'\n'` each piece loses one trailing `'\r'`. -/
def dropTrailingCR (l : List Char) : List Char :=
  if l.getLast? = some '\r' then l.dropLast else l

/-- `value.split(/\r?\n/)` on a character list. -/
def splitLinesChars (l : List Char) : List (List Char) :=
  (l.splitOn '\n').map dropTrailingCR

/-! ### normalizeProtocolBlock (agents/new page and agent edit page)

```ts
const normalizeProtocolBlock = (value: string): string =>
  value
    .split(/\r?\n/)
    .map((line) => line.trim())
    .filter(Boolean)
    .join("\n");
```
-/

/-- Character-list body of `normalizeProtocolBlock`: split into lines,
trim each, keep the non-empty ones (`filter(Boolean)`), join with `"\n"`. -/
def normalizeProtocolBlockChars (l : List Char) : List Char :=
  List.intercalate ['\n'] (((splitLinesChars l).map trimChars).filter (· ≠ []))

/-- `normalizeProtocolBlock` from the new-agent and edit-agent pages. -/
def normalizeProtocolBlock (value : String) : String :=
  ⟨normalizeProtocolBlockChars value.data⟩

/-! ### SendMessageDialog.handleSend

```ts
const handleSend = () => {
  if (!content.trim()) {
    setError("Message content is required.");
    return;
  }
  setError(null);
  setSuccess(false);
  sendMutation.mutate({ sessionId, data: { content: content.trim() } });
};
```
-/

/-- Outcome of `handleSend`: either a validation error with no request
transmitted, or a mutation request carrying the payload content. -/
inductive SendOutcome where
  | validationError (message : String)
  | request (content : String)
deriving DecidableEq, Repr

/-- `handleSend` of `SendMessageDialog` as a function of the message
content: an empty-after-trim content short-circuits into a validation
error (no `mutate` call), otherwise the trimmed content is sent. -/
def handleSend (content : String) : SendOutcome :=
  if jsTrim content = "" then .validationError "Message content is required."
  else .request (jsTrim content)

/-! ### GatewaySessionsPanel.getSessionId

```ts
const getSessionId = (session: SessionInfo): string => {
  return session.session_id || session.id || "unknown";
};
```
-/

/-- The fields of an inbound session payload that `getSessionId` reads.
`none` models an absent (`undefined`) field. -/
structure SessionInfo where
  session_id : Option String
  id : Option String
deriving DecidableEq, Repr

/-- JavaScript `a || b` for an optional string `a`: `a` is falsy when it
is `undefined` or the empty string. -/
def jsOrString (a : Option String) (b : String) : String :=
  match a with
  | none => b
  | some s => if s = "" then b else s

/-- `getSessionId` of `GatewaySessionsPanel`. -/
def getSessionId (session : SessionInfo) : String :=
  jsOrString session.session_id (jsOrString session.id "unknown")

/-! ### Gateway URL validator

The repository ships `gateway-form.test.ts` for `validateGatewayUrl`, but
`gateway-form.ts` itself is not in the excerpt, so the validator is
modelled from the spec's case analysis and checked against every vector
of the test file. -/

/-- Scan for the first `"://"` and split the input there. -/
def splitScheme : List Char → Option (List Char × List Char)
  | [] => none
  | ':' :: '/' :: '/' :: rest => some ([], rest)
  | c :: rest => (splitScheme rest).map (fun p => (c :: p.1, p.2))

/-- A URL scheme: a letter followed by letters, digits, `+`, `-` or `.`
(schemes outside this shape make URL construction throw). -/
def validSchemeChars : List Char → Bool
  | [] => false
  | c :: rest => c.isAlpha && rest.all (fun d => d.isAlphanum || d = '+' || d = '-' || d = '.')

/-- The pieces of a gateway URL the validator inspects. -/
structure GatewayUrl where
  scheme : String
  host : String
  port : Option String
  path : String
deriving DecidableEq, Repr

/-- Modelled from the spec: the URL parse underlying `validateGatewayUrl`
(the source file `gateway-form.ts` is not in the excerpt).  A URL is
`scheme "://" host [":" port] ["/" path]`; parsing fails (the constructor
would throw) without a `"://"`, with a malformed scheme, an empty host,
an empty or non-numeric port, or several colons in the authority.
The port is kept verbatim so that explicit default ports (`:443`, `:80`)
are still visible, which the JavaScript `url.port` field loses. -/
def parseGatewayUrl (value : List Char) : Option GatewayUrl :=
  match splitScheme value with
  | none => none
  | some (schemeChars, rest) =>
    let scheme := schemeChars.map Char.toLower
    if validSchemeChars scheme then
      let authority := rest.takeWhile (fun c => c ≠ '/')
      let path := rest.dropWhile (fun c => c ≠ '/')
      match authority.splitOn ':' with
      | [host] =>
        if !host.isEmpty then some ⟨⟨scheme⟩, ⟨host⟩, none, ⟨path⟩⟩ else none
      | [host, port] =>
        if !host.isEmpty && !port.isEmpty && port.all Char.isDigit then
          some ⟨⟨scheme⟩, ⟨host⟩, some ⟨port⟩, ⟨path⟩⟩
        else none
      | _ => none
    else none

/-- Modelled from the spec: `validateGatewayUrl` from `gateway-form.ts`
(`null` — here `none` — means valid).  Case analysis per the spec:
empty/whitespace-only input → "Gateway URL is required."; unparseable →
"Enter a valid gateway URL including port."; scheme other than `ws`/`wss`
→ "Gateway URL must start with ws:// or wss://."; no explicit port →
"Gateway URL must include an explicit port."; otherwise valid. -/
def validateGatewayUrl (url : String) : Option String :=
  let value := trimChars url.data
  if value.isEmpty then some "Gateway URL is required."
  else
    match parseGatewayUrl value with
    | none => some "Enter a valid gateway URL including port."
    | some parsed =>
      if parsed.scheme ≠ "ws" ∧ parsed.scheme ≠ "wss" then
        some "Gateway URL must start with ws:// or wss://."
      else if parsed.port = none then
        some "Gateway URL must include an explicit port."
      else none

/-! ### Template Sync Orchestrator -/

/-- Per-agent error entry of a sync result
(`Array<{ agent_id: string; error: string }>` in `TemplateSyncDialog`). -/
structure AgentError where
  agent_id : String
  error : String
deriving DecidableEq, Repr

/-- The `SyncResult` payload of `TemplateSyncDialog`. -/
structure SyncResult where
  agents_updated : Nat
  agents_skipped : Nat
  main_updated : Bool
  errors : List AgentError
deriving DecidableEq, Repr

/-- What one candidate agent's template push did. -/
inductive AgentOutcome where
  | updated
  | skipped
  | failed (error : String)
deriving DecidableEq, Repr

/-- Fold one candidate agent into the running sync result: an update or a
skip bumps the matching counter, a failure appends one error entry and
moves on. -/
def syncStep (r : SyncResult) (candidate : String × AgentOutcome) : SyncResult :=
  match candidate.2 with
  | .updated => { r with agents_updated := r.agents_updated + 1 }
  | .skipped => { r with agents_skipped := r.agents_skipped + 1 }
  | .failed e => { r with errors := r.errors ++ [⟨candidate.1, e⟩] }

/-- Modelled from the spec: the Template Sync Orchestrator's aggregation
(the backend implementation is not in the excerpt).  Every candidate
agent is processed in order; a failure is captured as an error entry and
never aborts the run; the function is total, so the operation always
returns a `SyncResult` (partial failures are encoded in `errors`, never
thrown). -/
def syncTemplates (candidates : List (String × AgentOutcome)) (mainUpdated : Bool) : SyncResult :=
  candidates.foldl syncStep
    { agents_updated := 0, agents_skipped := 0, main_updated := mainUpdated, errors := [] }

/-- The error entry a failed candidate contributes (and `none` for the
others). -/
def failureEntry (candidate : String × AgentOutcome) : Option AgentError :=
  match candidate.2 with
  | .failed e => some ⟨candidate.1, e⟩
  | _ => none

/-! ### TemplateSyncDialog state machine

`result` and `error` are the two `useState` cells; the four transitions
are `handleSync`, the mutation's `onSuccess` and `onError` callbacks, and
`handleClose`. -/

/-- The dialog's `result`/`error` state cells. -/
structure DialogState where
  result : Option SyncResult
  error : Option String
deriving DecidableEq, Repr

/-- Events that mutate the dialog state. -/
inductive DialogEvent where
  | syncStart
  | syncSuccess (status : Nat) (r : SyncResult)
  | syncError (message : String)
  | close
deriving DecidableEq, Repr

/-- One transition of `TemplateSyncDialog`'s state:
`handleSync` clears both cells before mutating; `onSuccess` stores the
result and clears the error, but only for a 200 response; `onError`
stores the message and clears the result; `handleClose` clears both. -/
def dialogStep (s : DialogState) : DialogEvent → DialogState
  | .syncStart => ⟨none, none⟩
  | .syncSuccess status r => if status = 200 then ⟨some r, none⟩ else s
  | .syncError message => ⟨none, some message⟩
  | .close => ⟨none, none⟩

/-- The dialog mounts with both cells `null`. -/
def dialogInit : DialogState := ⟨none, none⟩

/-- A dialog state reachable from the initial state by transitions. -/
inductive DialogReachable : DialogState → Prop where
  | init : DialogReachable dialogInit
  | step {s : DialogState} (e : DialogEvent) :
      DialogReachable s → DialogReachable (dialogStep s e)

/-! ### History Store and SessionHistoryDialog -/

/-- One History Event: an arrival sequence number assigned by the
dispatcher, the frame timestamp, and the displayed fields. -/
structure HistoryEvent where
  seq : Nat
  timestamp : Nat
  event_type : String
  content : String
deriving DecidableEq, Repr

/-- Per-session event logs, keyed by session id.  A session that was
never recorded has no entry at all — distinct from a session recorded
with an empty log. -/
def HistoryStore := List (String × List HistoryEvent)

/-- Look a session up in the store. -/
def lookupSession (st : HistoryStore) (sid : String) : Option (List HistoryEvent) :=
  match st with
  | [] => none
  | (k, evs) :: rest => if k = sid then some evs else lookupSession rest sid

/-- Append one event to a session's log, creating the session on first
contact. -/
def appendEvent (st : HistoryStore) (sid : String) (ev : HistoryEvent) : HistoryStore :=
  match st with
  | [] => [(sid, [ev])]
  | (k, evs) :: rest =>
    if k = sid then (k, evs ++ [ev]) :: rest
    else (k, evs) :: appendEvent rest sid ev

/-- Modelled from the spec: `getHistory(sessionId)` of the History Store
(the backend implementation is not in the excerpt).  An unknown session
fails with `SessionNotFoundError`; a known session returns its events
oldest first — an empty sequence when none were recorded. -/
def getHistory (st : HistoryStore) (sid : String) : Except String (List HistoryEvent) :=
  match lookupSession st sid with
  | none => .error "Session not found."
  | some evs => .ok evs

/-- An inbound gateway frame as the dispatcher sees it. -/
structure Frame where
  sid : String
  timestamp : Nat
  event_type : String
  content : String
deriving DecidableEq, Repr

/-- Dispatcher state: the store plus the next arrival sequence number. -/
structure DispatchState where
  store : HistoryStore
  nextSeq : Nat

/-- Modelled from the spec: the Message Dispatcher's inbound handler
`onFrame` appends the frame to its session's history in arrival order,
stamping it with the arrival sequence number. -/
def ingestFrame (s : DispatchState) (f : Frame) : DispatchState :=
  { store := appendEvent s.store f.sid ⟨s.nextSeq, f.timestamp, f.event_type, f.content⟩,
    nextSeq := s.nextSeq + 1 }

/-- Run the dispatcher over a trace of frames in arrival order. -/
def runDispatcher (frames : List Frame) : DispatchState :=
  frames.foldl ingestFrame ⟨[], 0⟩

/-- What `SessionHistoryDialog` renders in its body. -/
inductive HistoryView where
  | errorMessage (message : String)
  | emptyState (message : String)
  | eventList (evs : List HistoryEvent)
deriving DecidableEq, Repr

/-- The body of `SessionHistoryDialog`: a query error renders the error's
message; zero events render the "No history events found." empty state;
otherwise the events are mapped to rows in the order received. -/
def renderHistory (res : Except String (List HistoryEvent)) : HistoryView :=
  match res with
  | .error message => .errorMessage message
  | .ok [] => .emptyState "No history events found."
  | .ok evs => .eventList evs

/-! ### GatewaySessionsPanel polling -/

/-- The `refetchInterval` of `GatewaySessionsPanel`'s sessions query
(milliseconds). -/
def refetchIntervalMs : Nat := 30000

/-- Modelled from the spec: with `refetchOnMount: "always"` the query
fetches at mount and then every `refetchIntervalMs`, so at time `t` the
panel shows the fetch taken at the latest tick not after `t`. -/
def lastFetchTime (mount t : Nat) : Nat :=
  mount + ((t - mount) / refetchIntervalMs) * refetchIntervalMs

/-- The session ids the panel displays at time `t`, where `gateway u` is
the gateway's authoritative session-id list at time `u`. -/
def displayedSessions (gateway : Nat → List String) (mount t : Nat) : List String :=
  gateway (lastFetchTime mount t)

/-! ## Theorems -/

/-- C1: The gateway URL validator realises the spec's case analysis on
every vector of `gateway-form.test.ts`: ws/wss URLs with an explicit port
(including explicit default ports `:443` and `:80`, a path after the
port, and surrounding whitespace) are accepted; empty or whitespace-only
input, a ws/wss URL without a port, a non-ws/wss scheme, and a malformed
URL each produce their dedicated error message. -/
theorem validateGatewayUrl_case_analysis :
    validateGatewayUrl "ws://localhost:18789" = none ∧
    validateGatewayUrl "wss://gateway.example.com:8443" = none ∧
    validateGatewayUrl "wss://devbot.tailcc2080.ts.net:443" = none ∧
    validateGatewayUrl "ws://localhost:80" = none ∧
    validateGatewayUrl "wss://host.example.com:443/gateway" = none ∧
    validateGatewayUrl "  wss://host:443  " = none ∧
    validateGatewayUrl "" = some "Gateway URL is required." ∧
    validateGatewayUrl "   " = some "Gateway URL is required." ∧
    validateGatewayUrl "wss://gateway.example.com" =
      some "Gateway URL must include an explicit port." ∧
    validateGatewayUrl "ws://localhost" =
      some "Gateway URL must include an explicit port." ∧
    validateGatewayUrl "https://gateway.example.com:443" =
      some "Gateway URL must start with ws:// or wss://." ∧
    validateGatewayUrl "http://localhost:8080" =
      some "Gateway URL must start with ws:// or wss://." ∧
    validateGatewayUrl "not-a-url" =
      some "Enter a valid gateway URL including port." := by
  decide

/-- C2: `handleSend` fails with a validation error — transmitting no
request — exactly when the content is empty after trimming (in
particular for `""` and `"   "`), and otherwise the trimmed content is
what is delivered (`"  hello  "` delivers `"hello"`). -/
theorem handleSend_trims_and_validates :
    handleSend "" = .validationError "Message content is required." ∧
    handleSend "   " = .validationError "Message content is required." ∧
    handleSend "  hello  " = .request "hello" ∧
    (∀ content : String, jsTrim content = "" →
      handleSend content = .validationError "Message content is required.") ∧
    (∀ content : String, jsTrim content ≠ "" →
      handleSend content = .request (jsTrim content)) := by
  refine ⟨by decide, by decide, by decide, ?_, ?_⟩ <;>
    intro content h <;> simp [handleSend, h]

/-- C2 witness: instantiating both quantified parts at `"  "` and
`"  hi  "`. -/
theorem handleSend_trims_and_validates_witness :
    (jsTrim "  " = "" ∧
      handleSend "  " = .validationError "Message content is required.") ∧
    (jsTrim "  hi  " ≠ "" ∧ handleSend "  hi  " = .request (jsTrim "  hi  ")) :=
  ⟨⟨by decide, handleSend_trims_and_validates.2.2.2.1 "  " (by decide)⟩,
   ⟨by decide, handleSend_trims_and_validates.2.2.2.2 "  hi  " (by decide)⟩⟩

/-- C5 counterexample: a session that carries `session_id = ""` together
with `id = "abc"` resolves to `"abc"`, not to the carried `session_id`
value — so "whenever a session carries a session_id, that value is the
resolved identifier" is false as stated. -/
theorem getSessionId_empty_session_id_violation :
    (SessionInfo.mk (some "") (some "abc")).session_id = some "" ∧
    getSessionId ⟨some "", some "abc"⟩ = "abc" ∧
    getSessionId ⟨some "", some "abc"⟩ ≠ "" := by
  decide

/-- C5 amended: a non-empty `session_id` is always the resolved
identifier, and the `id` field is consulted exactly when `session_id` is
absent or the empty string. -/
theorem getSessionId_prefers_nonempty_session_id :
    (∀ (s : SessionInfo) (v : String),
      s.session_id = some v → v ≠ "" → getSessionId s = v) ∧
    (∀ s : SessionInfo, s.session_id = none ∨ s.session_id = some "" →
      getSessionId s = jsOrString s.id "unknown") := by
  constructor
  · intro s v hv hne
    simp [getSessionId, jsOrString, hv, hne]
  · intro s hs
    rcases hs with h | h <;> simp [getSessionId, jsOrString, h]

/-- C5 witness: instantiating both parts at concrete sessions. -/
theorem getSessionId_prefers_nonempty_session_id_witness :
    ((SessionInfo.mk (some "xyz") (some "abc")).session_id = some "xyz" ∧
      "xyz" ≠ "" ∧ getSessionId ⟨some "xyz", some "abc"⟩ = "xyz") ∧
    ((SessionInfo.mk (some "") (some "abc")).session_id = none ∨
        (SessionInfo.mk (some "") (some "abc")).session_id = some "") ∧
    getSessionId ⟨some "", some "abc"⟩ =
      jsOrString (SessionInfo.mk (some "") (some "abc")).id "unknown" :=
  ⟨⟨by decide, by decide,
    getSessionId_prefers_nonempty_session_id.1 _ "xyz" (by decide) (by decide)⟩,
   Or.inr (by decide),
   getSessionId_prefers_nonempty_session_id.2 _ (Or.inr (by decide))⟩

/-- C9: `getSessionId` is total and never returns an empty identifier:
when both fields are absent or empty it returns the literal `"unknown"`,
and an empty-string `session_id` behaves exactly like an absent one,
falling back to the `id` field. -/
theorem getSessionId_total_fallback :
    (∀ s : SessionInfo, getSessionId s ≠ "") ∧
    (∀ s : SessionInfo, s.session_id = none ∨ s.session_id = some "" →
      s.id = none ∨ s.id = some "" → getSessionId s = "unknown") ∧
    (∀ id : Option String, getSessionId ⟨some "", id⟩ = getSessionId ⟨none, id⟩) := by
  refine ⟨?_, ?_, ?_⟩
  · rintro ⟨sid, id⟩
    rcases sid with _ | s <;> rcases id with _ | i <;>
      simp only [getSessionId, jsOrString] <;> first
        | decide
        | (split_ifs <;> simp_all)
  · intro s hs hi
    rcases hs with h | h <;> rcases hi with h' | h' <;>
      simp [getSessionId, jsOrString, h, h']
  · intro id
    simp [getSessionId, jsOrString]

/-- C9 witness: instantiating the quantified parts at concrete sessions. -/
theorem getSessionId_total_fallback_witness :
    getSessionId ⟨some "", some ""⟩ ≠ "" ∧
    getSessionId ⟨some "", some ""⟩ = "unknown" ∧
    getSessionId ⟨some "", some "abc"⟩ = getSessionId ⟨none, some "abc"⟩ :=
  ⟨getSessionId_total_fallback.1 ⟨some "", some ""⟩,
   getSessionId_total_fallback.2.1 ⟨some "", some ""⟩
     (Or.inr rfl) (Or.inr rfl),
   getSessionId_total_fallback.2.2 (some "abc")⟩

/-- C4: every state of `TemplateSyncDialog` reachable from mount through
sync start, sync success, sync failure and dialog close has at most one
of the `result`/`error` cells set — a whole-operation failure shows only
the error, and a (partially) successful operation shows only the result
with its per-item error rows. -/
theorem templateSyncDialog_result_error_exclusive :
    ∀ s : DialogState, DialogReachable s → ¬(s.result.isSome ∧ s.error.isSome) := by
  intro s h
  induction h with
  | init => simp [dialogInit]
  | step e _ ih =>
    cases e with
    | syncStart => simp [dialogStep]
    | syncSuccess status r =>
      by_cases h200 : status = 200
      · simp [dialogStep, h200]
      · simpa [dialogStep, h200] using ih
    | syncError message => simp [dialogStep]
    | close => simp [dialogStep]

/-- C4 witness: the invariant at a concrete reachable state (mount, then
a successful sync storing a result). -/
theorem templateSyncDialog_result_error_exclusive_witness :
    DialogReachable (dialogStep dialogInit (.syncSuccess 200 ⟨4, 0, true, []⟩)) ∧
    ¬((dialogStep dialogInit (.syncSuccess 200 ⟨4, 0, true, []⟩)).result.isSome ∧
      (dialogStep dialogInit (.syncSuccess 200 ⟨4, 0, true, []⟩)).error.isSome) :=
  ⟨DialogReachable.step _ DialogReachable.init,
   templateSyncDialog_result_error_exclusive _
     (DialogReachable.step _ DialogReachable.init)⟩

/-- C6: `getHistory` distinguishes an unknown session (no record at all:
`SessionNotFoundError`, rendered as an error message) from a known but
empty one (an empty sequence, rendered as the "No history events found."
empty state). -/
theorem getHistory_unknown_vs_empty :
    ∀ (st : HistoryStore) (sid : String),
      (lookupSession st sid = none →
        getHistory st sid = .error "Session not found." ∧
        renderHistory (getHistory st sid) = .errorMessage "Session not found.") ∧
      (lookupSession st sid = some [] →
        getHistory st sid = .ok [] ∧
        renderHistory (getHistory st sid) =
          .emptyState "No history events found.") := by
  intro st sid
  constructor <;> intro h <;> simp [getHistory, h, renderHistory]

/-- C6 witness: a store that knows session `"s"` with zero events and
does not know session `"t"`. -/
theorem getHistory_unknown_vs_empty_witness :
    (lookupSession [("s", [])] "t" = none ∧
      renderHistory (getHistory [("s", [])] "t") =
        .errorMessage "Session not found.") ∧
    (lookupSession [("s", [])] "s" = some [] ∧
      renderHistory (getHistory [("s", [])] "s") =
        .emptyState "No history events found.") :=
  ⟨⟨by decide, ((getHistory_unknown_vs_empty [("s", [])] "t").1 (by decide)).2⟩,
   ⟨by decide, ((getHistory_unknown_vs_empty [("s", [])] "s").2 (by decide)).2⟩⟩

/-- C8: the sessions panel re-fetches on a 30-second interval (the gap to
the latest fetch is always under `refetchIntervalMs`), so a session
closed on the gateway side without a close event is absent from the
displayed listing at every time at least one refresh interval after the
close. -/
theorem sessionsPanel_periodic_refresh_reconciles :
    ∀ (gateway : Nat → List String) (mount closedAt t : Nat) (sid : String),
      (∀ u, closedAt ≤ u → sid ∉ gateway u) →
      mount ≤ t →
      closedAt + refetchIntervalMs ≤ t →
      t - lastFetchTime mount t < refetchIntervalMs ∧
      sid ∉ displayedSessions gateway mount t := by
  intro gateway mount closedAt t sid hclosed hmt hct
  have h1 := Nat.div_add_mod (t - mount) refetchIntervalMs
  have h2 : (t - mount) % refetchIntervalMs < refetchIntervalMs :=
    Nat.mod_lt _ (by decide)
  constructor
  · simp only [lastFetchTime, refetchIntervalMs] at *
    omega
  · show sid ∉ gateway (lastFetchTime mount t)
    apply hclosed
    simp only [lastFetchTime, refetchIntervalMs] at *
    omega

/-- C8 witness: a session closed at time 5 with no close event is gone
from the panel at time 30005 (one interval later, mount at 0). -/
theorem sessionsPanel_periodic_refresh_reconciles_witness :
    (∀ u, 5 ≤ u → "s1" ∉ (fun v => if v < 5 then ["s1"] else []) u) ∧
    (0 : Nat) ≤ 30005 ∧ 5 + refetchIntervalMs ≤ 30005 ∧
    "s1" ∉ displayedSessions (fun v => if v < 5 then ["s1"] else []) 0 30005 :=
  ⟨fun u hu => by simp [Nat.not_lt.mpr hu],
   by decide, by decide,
   (sessionsPanel_periodic_refresh_reconciles
      (fun v => if v < 5 then ["s1"] else []) 0 5 30005 "s1"
      (fun u hu => by simp [Nat.not_lt.mpr hu]) (by decide) (by decide)).2⟩

/-- Whether a candidate's push succeeded. -/
def isUpdated (c : String × AgentOutcome) : Bool :=
  match c.2 with
  | .updated => true
  | _ => false

/-- Whether a candidate was skipped. -/
def isSkipped (c : String × AgentOutcome) : Bool :=
  match c.2 with
  | .skipped => true
  | _ => false

/-- Folding `syncStep` over candidates from any running result adds the
per-outcome tallies and appends the failing candidates' error entries in
order. -/
theorem foldl_syncStep (cs : List (String × AgentOutcome)) (r : SyncResult) :
    cs.foldl syncStep r =
      ⟨r.agents_updated + (cs.filter isUpdated).length,
       r.agents_skipped + (cs.filter isSkipped).length,
       r.main_updated,
       r.errors ++ cs.filterMap failureEntry⟩ := by
  induction cs generalizing r with
  | nil => simp
  | cons c cs ih =>
    obtain ⟨aid, o⟩ := c
    cases o <;>
      simp [List.foldl_cons, ih, syncStep, isUpdated, isSkipped, failureEntry,
        List.filter_cons, List.filterMap_cons] <;>
      omega

/-- Each candidate is exactly one of updated, skipped or failed, so the
three tallies partition the candidate set. -/
theorem sync_tallies_partition (cs : List (String × AgentOutcome)) :
    (cs.filter isUpdated).length + (cs.filter isSkipped).length +
      (cs.filterMap failureEntry).length = cs.length := by
  induction cs with
  | nil => simp
  | cons c cs ih =>
    obtain ⟨aid, o⟩ := c
    cases o <;>
      simp [isUpdated, isSkipped, failureEntry, List.filter_cons,
        List.filterMap_cons] <;>
      omega

/-- C3: `syncTemplates` has partial-failure semantics: it is total (the
operation always returns a success-shaped `SyncResult`, never a thrown
error), every candidate is attempted (the tallies sum to the candidate
count, so one failure aborts nothing), each failing agent contributes
exactly its one entry to the ordered error list, and the result
aggregates the updated/skipped counts and the main-updated flag; in
particular a 5-candidate run with one failing agent reports
`agents_updated = 4` and exactly one error entry. -/
theorem syncTemplates_partial_failure_semantics :
    (∀ (cs : List (String × AgentOutcome)) (m : Bool),
      (syncTemplates cs m).errors = cs.filterMap failureEntry ∧
      (syncTemplates cs m).agents_updated = (cs.filter isUpdated).length ∧
      (syncTemplates cs m).agents_skipped = (cs.filter isSkipped).length ∧
      (syncTemplates cs m).main_updated = m ∧
      (syncTemplates cs m).agents_updated + (syncTemplates cs m).agents_skipped +
        (syncTemplates cs m).errors.length = cs.length) ∧
    syncTemplates
        [("a1", .updated), ("a2", .updated), ("a3", .failed "boom"),
         ("a4", .updated), ("a5", .updated)] true =
      ⟨4, 0, true, [⟨"a3", "boom"⟩]⟩ := by
  constructor
  · intro cs m
    have h := foldl_syncStep cs
      ⟨0, 0, m, []⟩
    have hp := sync_tallies_partition cs
    simp [syncTemplates, h]
    omega
  · decide

/-- Appending to a session's log only extends that session's entry. -/
theorem lookupSession_appendEvent_self (st : HistoryStore) (sid : String)
    (ev : HistoryEvent) :
    lookupSession (appendEvent st sid ev) sid =
      some (((lookupSession st sid).getD []) ++ [ev]) := by
  induction st with
  | nil => simp [appendEvent, lookupSession]
  | cons kv rest ih =>
    obtain ⟨k, evs⟩ := kv
    by_cases h : k = sid
    · simp [appendEvent, lookupSession, h]
    · simp [appendEvent, lookupSession, h, ih]

/-- Appending to one session leaves every other session's log unchanged. -/
theorem lookupSession_appendEvent_other (st : HistoryStore) (sid sid' : String)
    (ev : HistoryEvent) (h : sid' ≠ sid) :
    lookupSession (appendEvent st sid ev) sid' = lookupSession st sid' := by
  induction st with
  | nil => simp [appendEvent, lookupSession, Ne.symm h]
  | cons kv rest ih =>
    obtain ⟨k, evs⟩ := kv
    by_cases hk : k = sid
    · subst hk
      simp [appendEvent, lookupSession, Ne.symm h]
    · by_cases hk' : k = sid' <;> simp [appendEvent, lookupSession, hk, hk', ih, h]

/-- The per-session ordering the History Store guarantees: strictly
increasing arrival sequence and non-decreasing timestamps. -/
def eventOrd (a b : HistoryEvent) : Prop :=
  a.seq < b.seq ∧ a.timestamp ≤ b.timestamp

instance (a b : HistoryEvent) : Decidable (eventOrd a b) :=
  inferInstanceAs (Decidable (_ ∧ _))

/-- Dispatcher invariant relative to the frames still to arrive: every
recorded log is `eventOrd`-sorted, stamped below the next sequence
number, and timestamped no later than any remaining frame. -/
def StoreInv (s : DispatchState) (frames : List Frame) : Prop :=
  ∀ sid evs, lookupSession s.store sid = some evs →
    List.Pairwise eventOrd evs ∧
    (∀ e ∈ evs, e.seq < s.nextSeq) ∧
    (∀ e ∈ evs, ∀ f ∈ frames, e.timestamp ≤ f.timestamp)

/-- Ingesting the next frame preserves the dispatcher invariant. -/
theorem storeInv_ingest (s : DispatchState) (f : Frame) (fs : List Frame)
    (hinv : StoreInv s (f :: fs)) (hts : ∀ g ∈ fs, f.timestamp ≤ g.timestamp) :
    StoreInv (ingestFrame s f) fs := by
  intro sid evs hlk
  simp only [ingestFrame] at hlk ⊢
  by_cases hsid : sid = f.sid
  · subst hsid
    rw [lookupSession_appendEvent_self] at hlk
    cases hold : lookupSession s.store f.sid with
    | none =>
      rw [hold] at hlk
      simp only [Option.getD_none, List.nil_append, Option.some.injEq] at hlk
      subst hlk
      refine ⟨List.pairwise_singleton _ _, ?_, ?_⟩
      · intro e he
        simp at he
        simp [he]
      · intro e he g hg
        simp at he
        simp [he]
        exact hts g hg
    | some old =>
      rw [hold] at hlk
      simp only [Option.getD_some, Option.some.injEq] at hlk
      subst hlk
      obtain ⟨hpw, hseq, hbound⟩ := hinv f.sid old hold
      refine ⟨?_, ?_, ?_⟩
      · rw [List.pairwise_append]
        refine ⟨hpw, List.pairwise_singleton _ _, ?_⟩
        intro a ha b hb
        simp at hb
        subst hb
        exact ⟨hseq a ha, hbound a ha f (List.mem_cons_self f fs)⟩
      · intro e he
        rcases List.mem_append.mp he with h | h
        · exact Nat.lt_succ_of_lt (hseq e h)
        · simp at h
          simp [h]
      · intro e he g hg
        rcases List.mem_append.mp he with h | h
        · exact hbound e h g (List.mem_cons_of_mem f hg)
        · simp at h
          simp [h]
          exact hts g hg
  · rw [lookupSession_appendEvent_other _ _ _ _ hsid] at hlk
    obtain ⟨hpw, hseq, hbound⟩ := hinv sid evs hlk
    refine ⟨hpw, ?_, ?_⟩
    · intro e he
      exact Nat.lt_succ_of_lt (hseq e he)
    · intro e he g hg
      exact hbound e he g (List.mem_cons_of_mem f hg)

/-- Running the dispatcher over a timestamp-ordered trace preserves the
invariant down to the empty remainder. -/
theorem runDispatcher_inv (frames : List Frame) :
    ∀ s : DispatchState,
      List.Pairwise (fun f g : Frame => f.timestamp ≤ g.timestamp) frames →
      StoreInv s frames → StoreInv (frames.foldl ingestFrame s) [] := by
  induction frames with
  | nil =>
    intro s _ h
    simpa using h
  | cons f fs ih =>
    intro s hpw hinv
    rw [List.foldl_cons]
    obtain ⟨hts, hfs⟩ := List.pairwise_cons.mp hpw
    exact ih _ hfs (storeInv_ingest s f fs hinv hts)

/-- C7: for every timestamp-ordered arrival trace and every session the
store knows, `getHistory` returns that session's events oldest first —
strictly increasing in arrival sequence and non-decreasing in timestamp —
and the history dialog renders exactly that list in the order returned. -/
theorem getHistory_ordered_arrival :
    ∀ (frames : List Frame) (sid : String) (evs : List HistoryEvent),
      List.Pairwise (fun f g : Frame => f.timestamp ≤ g.timestamp) frames →
      getHistory (runDispatcher frames).store sid = .ok evs →
      List.Pairwise eventOrd evs ∧
      (evs ≠ [] → renderHistory (Except.ok evs) = .eventList evs) := by
  intro frames sid evs hpw hok
  have hinv0 : StoreInv ⟨[], 0⟩ frames := by
    intro sid' evs' h
    simp [lookupSession] at h
  have hinv := runDispatcher_inv frames ⟨[], 0⟩ hpw hinv0
  have hlk : lookupSession (runDispatcher frames).store sid = some evs := by
    unfold getHistory at hok
    cases h : lookupSession (runDispatcher frames).store sid with
    | none => rw [h] at hok; exact absurd hok (by simp)
    | some e =>
      rw [h] at hok
      simp only [Except.ok.injEq] at hok
      rw [hok]
  obtain ⟨hord, -, -⟩ := hinv sid evs hlk
  refine ⟨hord, fun hne => ?_⟩
  cases evs with
  | nil => exact absurd rfl hne
  | cons e es => rfl

/-- C7 witness: a three-frame trace over two sessions; session `"s"`'s
history comes back stamped `0, 1` in arrival order and is rendered as
that exact list. -/
theorem getHistory_ordered_arrival_witness :
    List.Pairwise (fun f g : Frame => f.timestamp ≤ g.timestamp)
      [⟨"s", 1, "message", "hi"⟩, ⟨"s", 2, "tool_call", "x"⟩,
       ⟨"t", 2, "message", "y"⟩] ∧
    getHistory
        (runDispatcher
          [⟨"s", 1, "message", "hi"⟩, ⟨"s", 2, "tool_call", "x"⟩,
           ⟨"t", 2, "message", "y"⟩]).store "s" =
      .ok [⟨0, 1, "message", "hi"⟩, ⟨1, 2, "tool_call", "x"⟩] ∧
    List.Pairwise eventOrd
      [⟨0, 1, "message", "hi"⟩, ⟨1, 2, "tool_call", "x"⟩] ∧
    renderHistory (Except.ok
        [(⟨0, 1, "message", "hi"⟩ : HistoryEvent), ⟨1, 2, "tool_call", "x"⟩]) =
      .eventList [⟨0, 1, "message", "hi"⟩, ⟨1, 2, "tool_call", "x"⟩] :=
  ⟨by decide, rfl,
   (getHistory_ordered_arrival
      [⟨"s", 1, "message", "hi"⟩, ⟨"s", 2, "tool_call", "x"⟩,
       ⟨"t", 2, "message", "y"⟩] "s"
      [⟨0, 1, "message", "hi"⟩, ⟨1, 2, "tool_call", "x"⟩]
      (by decide) rfl).1,
   (getHistory_ordered_arrival
      [⟨"s", 1, "message", "hi"⟩, ⟨"s", 2, "tool_call", "x"⟩,
       ⟨"t", 2, "message", "y"⟩] "s"
      [⟨0, 1, "message", "hi"⟩, ⟨1, 2, "tool_call", "x"⟩]
      (by decide) rfl).2 (by decide)⟩

/-! ### Lemmas about trimming and line splitting -/

/-- What `normalizeProtocolBlock` joins: the trimmed, non-blank lines of
the input. -/
def normalizedLines (l : List Char) : List (List Char) :=
  ((splitLinesChars l).map trimChars).filter (· ≠ [])

theorem normalizeProtocolBlockChars_eq (l : List Char) :
    normalizeProtocolBlockChars l = List.intercalate ['\n'] (normalizedLines l) :=
  rfl

/-- The head that survives `dropWhile p` fails `p`. -/
theorem head_dropWhile_false (p : Char → Bool) (l : List Char) (a : Char)
    (h : (l.dropWhile p).head? = some a) : p a = false := by
  have h' := List.head?_dropWhile_not p l
  rw [h] at h'
  exact h'

/-- `dropWhile p` fixes a list whose head fails `p`. -/
theorem dropWhile_eq_self_of_head (p : Char → Bool) (l : List Char)
    (h : ∀ a, l.head? = some a → p a = false) : l.dropWhile p = l := by
  cases l with
  | nil => rfl
  | cons a t =>
    rw [List.dropWhile_cons, if_neg]
    simp [h a rfl]

/-- `dropWhile` only removes from the front, so a non-empty result keeps
the last element. -/
theorem getLast?_dropWhile (p : Char → Bool) (l : List Char)
    (h : l.dropWhile p ≠ []) : (l.dropWhile p).getLast? = l.getLast? := by
  induction l with
  | nil => exact absurd rfl h
  | cons a t ih =>
    rw [List.dropWhile_cons]
    by_cases hp : p a
    · rw [List.dropWhile_cons, if_pos hp] at h
      rw [if_pos hp, ih h]
      cases t with
      | nil => simp at h
      | cons b t' => rw [List.getLast?_cons_cons]
    · rw [if_neg hp]

/-- Every character of the trimmed list came from the original. -/
theorem mem_trimChars {l : List Char} {a : Char} (h : a ∈ trimChars l) :
    a ∈ l := by
  rw [trimChars, List.mem_reverse] at h
  have h1 : a ∈ (l.dropWhile isJsWhitespace).reverse :=
    List.Sublist.mem h (List.dropWhile_sublist _)
  rw [List.mem_reverse] at h1
  exact List.Sublist.mem h1 (List.dropWhile_sublist _)

/-- The first character of a trimmed list is not whitespace. -/
theorem trimChars_head (l : List Char) (a : Char)
    (h : (trimChars l).head? = some a) : isJsWhitespace a = false := by
  rw [trimChars, List.head?_reverse] at h
  have hne : (l.dropWhile isJsWhitespace).reverse.dropWhile isJsWhitespace ≠ [] := by
    intro h0
    rw [h0] at h
    simp at h
  rw [getLast?_dropWhile _ _ hne, List.getLast?_reverse] at h
  exact head_dropWhile_false _ _ _ h

/-- The last character of a trimmed list is not whitespace. -/
theorem trimChars_getLast (l : List Char) (a : Char)
    (h : (trimChars l).getLast? = some a) : isJsWhitespace a = false := by
  rw [trimChars, List.getLast?_reverse] at h
  exact head_dropWhile_false _ _ _ h

/-- Trimming fixes a list with no whitespace at either edge. -/
theorem trimChars_eq_self (l : List Char)
    (h1 : ∀ a, l.head? = some a → isJsWhitespace a = false)
    (h2 : ∀ a, l.getLast? = some a → isJsWhitespace a = false) :
    trimChars l = l := by
  rw [trimChars, dropWhile_eq_self_of_head _ _ h1,
    dropWhile_eq_self_of_head, List.reverse_reverse]
  intro a ha
  rw [List.head?_reverse] at ha
  exact h2 a ha

/-- JavaScript `trim` is idempotent. -/
theorem trimChars_idem (l : List Char) : trimChars (trimChars l) = trimChars l :=
  trimChars_eq_self _ (trimChars_head l) (trimChars_getLast l)

/-- No character of a `splitOnP` piece satisfies the split predicate. -/
theorem splitOnP_piece_false (q : Char → Bool) (l : List Char) :
    ∀ piece ∈ List.splitOnP q l, ∀ a ∈ piece, q a = false := by
  induction l with
  | nil =>
    intro piece hp a ha
    simp [List.splitOnP_nil] at hp
    subst hp
    simp at ha
  | cons c t ih =>
    intro piece hp a ha
    rw [List.splitOnP_cons] at hp
    by_cases hq : q c
    · rw [if_pos hq] at hp
      rcases List.mem_cons.mp hp with h | h
      · subst h
        simp at ha
      · exact ih piece h a ha
    · rw [if_neg hq] at hp
      cases h' : List.splitOnP q t with
      | nil => exact absurd h' (List.splitOnP_ne_nil _ _)
      | cons hd tl =>
        rw [h'] at hp
        simp only [List.modifyHead] at hp
        rcases List.mem_cons.mp hp with h | h
        · subst h
          rcases List.mem_cons.mp ha with h | h
          · subst h
            simpa using hq
          · exact ih hd (h' ▸ List.mem_cons_self hd tl) a h
        · exact ih piece (h' ▸ List.mem_cons_of_mem hd h) a ha

/-- Pieces of a split on `'\n'` contain no `'\n'`. -/
theorem newline_not_mem_splitOn (l : List Char) :
    ∀ piece ∈ l.splitOn '\n', '\n' ∉ piece := by
  intro piece hp hin
  have h := splitOnP_piece_false (· == '\n') l piece (by simpa [List.splitOn] using hp)
    '\n' hin
  simp at h

/-- Every character of `dropTrailingCR l` came from `l`. -/
theorem mem_dropTrailingCR {l : List Char} {a : Char}
    (h : a ∈ dropTrailingCR l) : a ∈ l := by
  rw [dropTrailingCR] at h
  split at h
  · exact List.Sublist.mem h (List.dropLast_sublist l)
  · exact h

/-- `dropTrailingCR` fixes a list not ending in whitespace. -/
theorem dropTrailingCR_eq_self (l : List Char)
    (h : ∀ a, l.getLast? = some a → isJsWhitespace a = false) :
    dropTrailingCR l = l := by
  rw [dropTrailingCR, if_neg]
  intro h'
  have := h '\r' h'
  simp [isJsWhitespace] at this

/-- The lines `normalizeProtocolBlock` keeps are non-empty, free of
`'\n'`, and have no whitespace at either edge. -/
theorem normalizedLines_shape (l : List Char) :
    ∀ x ∈ normalizedLines l, x ≠ [] ∧
      (∀ a, x.head? = some a → isJsWhitespace a = false) ∧
      (∀ a, x.getLast? = some a → isJsWhitespace a = false) ∧
      '\n' ∉ x := by
  intro x hx
  obtain ⟨hmem, hne⟩ := List.mem_filter.mp hx
  obtain ⟨y, hy, hxy⟩ := List.mem_map.mp hmem
  obtain ⟨z, hz, hyz⟩ := List.mem_map.mp hy
  subst hxy
  refine ⟨by simpa using hne, trimChars_head y, trimChars_getLast y, ?_⟩
  intro hin
  have h1 : '\n' ∈ y := mem_trimChars hin
  rw [← hyz] at h1
  exact newline_not_mem_splitOn l z hz (mem_dropTrailingCR h1)

/-- Splitting the normalized output on `'\n'` recovers exactly the
trimmed non-blank lines, provided there is at least one. -/
theorem splitOn_normalizeProtocolBlockChars (l : List Char)
    (h : normalizedLines l ≠ []) :
    (normalizeProtocolBlockChars l).splitOn '\n' = normalizedLines l := by
  rw [normalizeProtocolBlockChars_eq]
  exact List.splitOn_intercalate (normalizedLines l) '\n'
    (fun x hx => (normalizedLines_shape l x hx).2.2.2) h

/-- Re-normalizing the normalized output changes nothing (character
level). -/
theorem normalizeProtocolBlockChars_idem (l : List Char) :
    normalizeProtocolBlockChars (normalizeProtocolBlockChars l) =
      normalizeProtocolBlockChars l := by
  by_cases hL : normalizedLines l = []
  · have h0 : normalizeProtocolBlockChars l = [] := by
      rw [normalizeProtocolBlockChars_eq, hL]
      rfl
    rw [h0]
    rfl
  · have hsplit := splitOn_normalizeProtocolBlockChars l hL
    have hdrop : (normalizedLines l).map dropTrailingCR = normalizedLines l := by
      rw [List.map_congr_left (g := id)
        (fun x hx => dropTrailingCR_eq_self x (normalizedLines_shape l x hx).2.2.1),
        List.map_id]
    have htrim : (normalizedLines l).map trimChars = normalizedLines l := by
      rw [List.map_congr_left (g := id) (fun x hx =>
          trimChars_eq_self x (normalizedLines_shape l x hx).2.1
            (normalizedLines_shape l x hx).2.2.1),
        List.map_id]
    have hfilter : (normalizedLines l).filter (· ≠ []) = normalizedLines l :=
      List.filter_eq_self.mpr fun x hx => by
        simp [(normalizedLines_shape l x hx).1]
    conv_lhs => rw [normalizeProtocolBlockChars_eq]
    rw [show normalizedLines (normalizeProtocolBlockChars l) =
        ((((normalizeProtocolBlockChars l).splitOn '\n').map dropTrailingCR).map
          trimChars).filter (· ≠ [])
      from rfl]
    rw [hsplit, hdrop, htrim, hfilter, normalizeProtocolBlockChars_eq]

/-- C10 counterexample: a carriage return in the interior of a line
survives `normalizeProtocolBlock` untouched, so the output is not free
of carriage returns. -/
theorem normalizeProtocolBlock_interior_cr_cex :
    normalizeProtocolBlock "a\rb" = "a\rb" ∧
    '\r' ∈ (normalizeProtocolBlock "a\rb").data := by
  decide

/-- C10 amended: `normalizeProtocolBlock` is idempotent, and its output
is the input's non-blank lines, each trimmed, joined by single newlines:
splitting the output on `'\n'` recovers exactly those trimmed non-blank
lines, and every line of a non-empty output is non-empty, fixed by
trimming (so no leading/trailing whitespace and no carriage return at a
line edge), and free of `'\n'`.  A carriage return strictly inside a
line is preserved. -/
theorem normalizeProtocolBlock_idempotent_shape :
    (∀ s : String,
      normalizeProtocolBlock (normalizeProtocolBlock s) = normalizeProtocolBlock s) ∧
    (∀ s : String, normalizedLines s.data ≠ [] →
      (normalizeProtocolBlock s).data.splitOn '\n' = normalizedLines s.data) ∧
    (∀ s : String, normalizeProtocolBlock s = "" ∨
      ∀ line ∈ (normalizeProtocolBlock s).data.splitOn '\n',
        line ≠ [] ∧ trimChars line = line ∧ '\n' ∉ line) := by
  refine ⟨?_, ?_, ?_⟩
  · intro s
    show (⟨normalizeProtocolBlockChars (normalizeProtocolBlockChars s.data)⟩ : String) =
      ⟨normalizeProtocolBlockChars s.data⟩
    rw [normalizeProtocolBlockChars_idem]
  · intro s h
    exact splitOn_normalizeProtocolBlockChars s.data h
  · intro s
    by_cases hL : normalizedLines s.data = []
    · left
      show (⟨normalizeProtocolBlockChars s.data⟩ : String) = ""
      rw [normalizeProtocolBlockChars_eq, hL]
      rfl
    · right
      intro line hline
      rw [show (normalizeProtocolBlock s).data = normalizeProtocolBlockChars s.data
          from rfl,
        splitOn_normalizeProtocolBlockChars s.data hL] at hline
      obtain ⟨hne, hhead, hlast, hnl⟩ := normalizedLines_shape s.data line hline
      exact ⟨hne, trimChars_eq_self line hhead hlast, hnl⟩

/-- C10 witness: instantiating the hypothesis-bearing parts at
`" a \nb "` and its line `['a']`. -/
theorem normalizeProtocolBlock_idempotent_shape_witness :
    normalizedLines (" a \nb ").data ≠ [] ∧
    (normalizeProtocolBlock " a \nb ").data.splitOn '\n' =
      normalizedLines (" a \nb ").data ∧
    (['a'] ≠ [] ∧ trimChars ['a'] = ['a'] ∧ '\n' ∉ ['a']) :=
  ⟨by decide,
   normalizeProtocolBlock_idempotent_shape.2.1 " a \nb " (by decide),
   (normalizeProtocolBlock_idempotent_shape.2.2 " a \nb ").resolve_left
     (by decide) ['a'] (by decide)⟩

end MissionControl
